import Mathlib

/-!
Shallow embedding of the pull orchestration in `src/lib/source/sourcePullApi.ts`
(class `MdapiPullApi`) and of `src/lib/core/projectDir.ts` from the
salesforce-alm repository, together with theorems checking the
specification's claims about them.

The TypeScript code is asynchronous and effectful.  We embed it as pure
Lean functions: every external collaborator (the status/conflict service,
the metadata retrieval gateway, the manifest creator, the workspace
adapter's commit, the message bundles) is a field of an explicit
environment record `Alm.Env`, and every observable side effect
(status query, temp-directory creation/cleanup, gateway retrieve call,
per-file processing, obsolete handling, the final `updateSource` commit,
the checkpoint re-query) is recorded in an explicit event trace.
Thrown JavaScript values are modelled by `Alm.Thrown` (JavaScript can
throw both `Error` objects and plain strings, and `_checkForConflicts`
really does throw a string); fallible computations return
`Except Thrown α` paired with their trace.
-/

namespace Alm

/-- One retrieved artifact descriptor from a retrieval result
(`fileProperties` entries in `sourcePullApi.ts`). -/
structure FileProperty where
  type : String
  fullName : String
  fileName : String
deriving DecidableEq, Repr

/-- A member known to have been deleted remotely (`this.obsoleteNames`
entries: objects with `fullName` and `type`). -/
structure ObsoleteName where
  fullName : String
  type : String
deriving DecidableEq, Repr

/-- One conflict surfaced by the status check (`statusApi.getLocalConflicts()`
elements; the pull only carries the list through, so we model the fields the
spec names). -/
structure ConflictEntry where
  fullName : String
  type : String
deriving DecidableEq, Repr

/-- Error rejected by the status/conflict query (`err` in
`_checkForConflicts`'s catch handler): an `errorCode` that may be
`INVALID_TYPE` and a message. -/
structure StatusErr where
  errorCode : Option String
  message : String
deriving DecidableEq, Repr

/-- A retrieval result as consumed by `_didRetrieveSucceed` and
`_processResults`: `{success, status, messages?, fileProperties?}`.
`messages` is `Option` so that an absent field (`_.isNil`) is
distinguishable from a present-but-empty list; `fileProperties` is
`Option (List _)` so that an absent or non-array field is `none`. -/
structure RetrievalResult where
  success : Bool
  status : String
  messages : Option (List String)
  fileProperties : Option (List FileProperty)
deriving DecidableEq, Repr

/-- The manifest value produced by `_createPackageManifest`: either the
empty sentinel `{empty: true}` or a real manifest `{file: ...}`. -/
structure Manifest where
  empty : Bool
  file : Option String
deriving DecidableEq, Repr

/-- A package slated for retrieval (from `getRevisionsAsPackage`); the pull
logic only consults `pkg.isEmpty()`. -/
structure Pkg where
  isEmpty : Bool
deriving DecidableEq, Repr

/-- A workspace element accumulated into `AggregateSourceElements` during one
apply.  The adapter (`SourceWorkspaceAdapter`) is not part of `src/`, so this
is modelled from the spec: an element records its own identity, the owning
composite element it was attributed to, and whether it was changed or
deleted. -/
structure WorkspaceElement where
  fullName : String
  elementType : String
  owner : String
  state : String
deriving DecidableEq, Repr

/-- The per-package result value of a successful pull step
(`{ inboundFiles }` returned by `_processResults`). -/
structure PkgPullResult where
  inboundFiles : List WorkspaceElement
deriving DecidableEq, Repr

/-- A thrown JavaScript value: either an `Error` with a `name`, a `message`
and an optional `sourceConflictElements` payload, or a bare string
(`_checkForConflicts` throws the result of an assignment expression, which
is the message string). -/
inductive Thrown where
  | err (name : String) (message : String)
      (sourceConflictElements : Option (List ConflictEntry))
  | str (s : String)
deriving DecidableEq, Repr

/-- The name carried by a thrown value; a bare string has none. -/
def Thrown.thrownName : Thrown → Option String
  | .err n _ _ => some n
  | .str _ => none

/-- Outcome of one call to the retrieval gateway
(`new MdRetrieveApi(...).retrieve(...)`): a resolved result, or a rejection
whose error may carry a partial-failure `err.result`. -/
inductive GatewayOutcome where
  | ok (r : RetrievalResult)
  | err (carried : Option RetrievalResult)
deriving DecidableEq, Repr

/-- Observable side effects of one pull, in order of occurrence. -/
inductive Event where
  | statusQuery
  | getRevisionsAsPackage
  | setActivePackage (pkgName : String)
  | createOutputDir (dir : Nat)
  | createManifest (pkgName : String)
  | retrieve (manifestFile : String) (targetDir : Nat) (wait : Nat)
  | processFileProp (fp : FileProperty) (bundleProps : List FileProperty)
  | handleObsolete (fullName : String) (type : String)
  | updateSourceCall (manifest : Option String) (checkForDuplicates : Bool)
      (unsupportedMimeTypes : List String) (forceoverwrite : Bool)
  | cleanupOutputDir (dir : Nat)
  | setMaxRevisionFromQuery
deriving DecidableEq, Repr

/-- The options object handed to `doPull` (`options.wait` is `none` when the
caller passed no number, matching the `isNaN(options.wait)` test). -/
structure PullOptions where
  wait : Option Nat
  forceoverwrite : Bool
  packageXml : Option String
  debug : Bool
  unsupportedMimeTypes : List String
  manifest : Option String
deriving DecidableEq, Repr

/-- The environment of one pull: the state of every external collaborator
`MdapiPullApi` talks to, plus the instance state (`this.obsoleteNames`)
that `getRevisionsAsPackage` filled in. -/
structure Env where
  defaultSrcWaitMinutes : Nat
  sep : Char
  status : Except StatusErr (List ConflictEntry)
  packages : List (String × Pkg)
  obsoleteNames : List ObsoleteName
  manifestFileFor : String → String
  gateway : String → GatewayOutcome
  retrieveFailureMsg : RetrievalResult → String
  nonScratchOrgPullMsg : String
  updateSourceErr : Option Thrown

instance {ε α : Type} [DecidableEq ε] [DecidableEq α] : DecidableEq (Except ε α) := fun x y =>
  match x, y with
  | .ok a, .ok b =>
    if h : a = b then isTrue (by rw [h]) else
      isFalse (fun he => h (by cases he; rfl))
  | .ok _, .error _ => isFalse (fun he => by cases he)
  | .error _, .ok _ => isFalse (fun he => by cases he)
  | .error a, .error b =>
    if h : a = b then isTrue (by rw [h]) else
      isFalse (fun he => h (by cases he; rfl))

/-- Boolean success test on `Except` (used to phrase claims about which leg
of the orchestration ran). -/
def exceptOk {ε α : Type} : Except ε α → Bool
  | .ok _ => true
  | .error _ => false

/-- Embeds `pathUtil.replaceForwardSlashes`: replace every forward slash by
the host path separator (written over the character list so that it
evaluates inside the kernel). -/
def replaceForwardSlashes (sep : Char) (s : String) : String :=
  (s.toList.map (fun c => if c = '/' then sep else c)).asString

/-- Normalizes a file property's `fullName` and `fileName` to host path
separators (the two assignments inside the `forEach` of `_syncDownSource`). -/
def normalizeFileProperty (sep : Char) (fp : FileProperty) : FileProperty :=
  { fp with
    fullName := replaceForwardSlashes sep fp.fullName
    fileName := replaceForwardSlashes sep fp.fileName }

/-- Modelled from the spec: the suffixes of a bundle definition file.  The
source comment in `_syncDownSource` lists them: "Each Aura bundle has a
definition file that has one of the suffixes: .app, .cmp, .design, .evt,
etc."; `BundleMetadataType` itself is not under `src/`. -/
def definitionSuffixes : List String :=
  [".app", ".cmp", ".design", ".evt"]

/-- Modelled from the spec: whether a file property is a bundle definition
(root descriptor) file, by its file name suffix. -/
def isDefinitionFile (fileName : String) : Bool :=
  definitionSuffixes.any (fun suf => suf.toList.isSuffixOf fileName.toList)

/-- Modelled from the spec: the bundle directory of a file name (everything
before its last separator) — the sibling files of one composite element
share one logical identity, their containing bundle directory. -/
def bundleDir (fileName : String) : String :=
  (((fileName.toList.reverse.dropWhile (fun c => c != '/')).drop 1).reverse).asString

/-- Modelled from the spec: the bundle identity of a file property, read off
its (separator-normalized) file name. -/
def bundleKey (sep : Char) (fp : FileProperty) : String :=
  bundleDir (replaceForwardSlashes sep fp.fileName)

/-- Modelled from the spec: `BundleMetadataType.getDefinitionProperties`
(not under `src/`) — from the entire `fileProperties` list, the properties
of the bundle definition files, computed once before per-file processing. -/
def getDefinitionProperties (fps : List FileProperty) : List FileProperty :=
  fps.filter (fun fp => isDefinitionFile fp.fileName)

/-- Modelled from the spec: look up the owning definition's file properties
for one sub-component file in the precomputed definition-property list. -/
def findOwningDefinition (sep : Char) (bundleProps : List FileProperty)
    (fp : FileProperty) : Option FileProperty :=
  bundleProps.find? (fun d => bundleKey sep d == bundleKey sep fp)

/-- Modelled from the spec: `swa.processMdapiFileProperty` (the adapter is
not under `src/`) — write/update the workspace element for one retrieved
file, attributing it to its owning definition's element when the
precomputed mapping knows one. -/
def processMdapiFileProperty (sep : Char) (bundleProps : List FileProperty)
    (fp : FileProperty) : WorkspaceElement :=
  { fullName := fp.fullName
    elementType := fp.type
    owner :=
      match findOwningDefinition sep bundleProps fp with
      | some d => d.fullName
      | none => fp.fullName
    state := "changed" }

/-- Modelled from the spec: `swa.handleObsoleteSource` (the adapter is not
under `src/`) — remove the local workspace element for one remotely-deleted
member, accumulating the deletion. -/
def handleObsoleteSource (o : ObsoleteName) : WorkspaceElement :=
  { fullName := o.fullName
    elementType := o.type
    owner := o.fullName
    state := "deleted" }

/-- Modelled from the spec: whether the workspace adapter's commit
(`updateSource`) runs duplicate detection, as a function of the
check-for-duplicates argument at the call site (`false /** check for
duplicates **/` in `_syncDownSource`). -/
def commitRunsDuplicateCheck (checkForDuplicates : Bool) : Bool :=
  checkForDuplicates

/-- Embeds `MdapiPullApi._didRetrieveSucceed`: non-nil result, truthy
`success`, status `"Succeeded"`, nil `messages`, and a well-formed
`fileProperties` array. -/
def didRetrieveSucceed : Option RetrievalResult → Bool
  | none => false
  | some r =>
    r.success && r.status == "Succeeded" && r.messages.isNone
      && r.fileProperties.isSome

/-- The success predicate as the claim states it: `messages` may be either
empty or absent (the code instead requires it to be absent). -/
def didRetrieveSucceedClaim : Option RetrievalResult → Bool
  | none => false
  | some r =>
    r.success && r.status == "Succeeded" && (r.messages.getD []).isEmpty
      && r.fileProperties.isSome

/-- The trivial succeeded-empty result synthesized in `doPull` when the
manifest is empty and obsolete names exist:
`{ fileProperties: [], success: true, status: 'Succeeded' }`. -/
def succeededEmptyResult : RetrievalResult :=
  { success := true
    status := "Succeeded"
    messages := none
    fileProperties := some [] }

/-- The aggregate of workspace elements accumulated by one apply
(`_syncDownSource`): the kept, normalized file properties processed against
the once-precomputed bundle definition properties, followed by the
deletions for the obsolete names. -/
def pulledAggregate (sep : Char) (obsoleteNames : List ObsoleteName)
    (r : RetrievalResult) : List WorkspaceElement :=
  let fps := r.fileProperties.getD []
  let bundleFileProperties := getDefinitionProperties fps
  let kept := (fps.filter (fun fp => fp.type != "Package")).map (normalizeFileProperty sep)
  kept.map (processMdapiFileProperty sep bundleFileProperties)
    ++ obsoleteNames.map handleObsoleteSource

/-- The event trace of one apply (`_syncDownSource`): per-file processing of
each kept, normalized file property (each call receiving the bundle
definition properties precomputed from the entire result set), obsolete
handling, and the final `updateSource` commit with the check-for-duplicates
argument hard-coded to `false` and the caller's mime-type and
force-overwrite flags passed through. -/
def syncDownTrace (env : Env) (opts : PullOptions) (r : RetrievalResult) : List Event :=
  let fps := r.fileProperties.getD []
  let bundleFileProperties := getDefinitionProperties fps
  let kept := (fps.filter (fun fp => fp.type != "Package")).map (normalizeFileProperty env.sep)
  kept.map (fun fp => Event.processFileProp fp bundleFileProperties)
    ++ env.obsoleteNames.map (fun o => Event.handleObsolete o.fullName o.type)
    ++ [Event.updateSourceCall opts.manifest false opts.unsupportedMimeTypes opts.forceoverwrite]

/-- Embeds `MdapiPullApi._syncDownSource`: returns the aggregate committed by
`swa.updateSource` (or the adapter's rejection, which propagates), paired
with the apply's event trace. -/
def syncDownSource (env : Env) (opts : PullOptions) (r : RetrievalResult) :
    Except Thrown (List WorkspaceElement) × List Event :=
  (match env.updateSourceErr with
    | some t => .error t
    | none => .ok (pulledAggregate env.sep env.obsoleteNames r),
   syncDownTrace env opts r)

/-- Embeds `MdapiPullApi._processResults`: a nil result yields `undefined`
(no error), a succeeded result yields `{ inboundFiles }`, anything else
throws a `RetrieveFailed` error built from the failure message. -/
def processResults (env : Env) (result : Option RetrievalResult)
    (inboundFiles : List WorkspaceElement) : Except Thrown (Option PkgPullResult) :=
  match result with
  | none => .ok none
  | some r =>
    if didRetrieveSucceed (some r) then .ok (some { inboundFiles })
    else .error (.err "RetrieveFailed" (env.retrieveFailureMsg r) none)

/-- Embeds `MdapiPullApi._postRetrieve`: when the success predicate holds the
apply runs (its rejection propagates) and its aggregate becomes the inbound
files handed to `_processResults`; otherwise `_processResults` is called with
no inbound files.  The source-tracking refreshes after the apply
(`maybeRefreshIndex`, `getSourceMembersFromResult`, `updateSourceTracking`)
touch no state this embedding observes and are elided. -/
def postRetrieve (env : Env) (opts : PullOptions) (result : Option RetrievalResult) :
    Except Thrown (Option PkgPullResult) × List Event :=
  match result with
  | none => (processResults env none [], [])
  | some r =>
    if didRetrieveSucceed (some r) then
      match (syncDownSource env opts r).1 with
      | .error t => (.error t, syncDownTrace env opts r)
      | .ok agg => (processResults env (some r) agg, syncDownTrace env opts r)
    else (processResults env (some r) [], [])

/-- Embeds `MdapiPullApi._createPackageManifest`: an empty package yields the
empty sentinel with no I/O; otherwise, unless a debug `packageXml` override
is supplied, the manifest creator is invoked (the version resolution touches
only the created manifest artifact and is elided); the override path uses
the caller's reference verbatim. -/
def createPackageManifest (env : Env) (options : PullOptions) (pkgName : String)
    (pkg : Pkg) : Manifest × List Event :=
  if pkg.isEmpty then ({ empty := true, file := none }, [])
  else if options.packageXml.isNone || !options.debug then
    ({ empty := false, file := some (env.manifestFileFor pkgName) },
     [Event.createManifest pkgName])
  else ({ empty := false, file := options.packageXml }, [])

/-- The `result` variable of the per-package step in `doPull`: for an empty
manifest, a trivial succeeded-empty result is synthesized when (and only
when) obsolete names exist, and the result is left undefined otherwise;
for a real manifest the gateway is called with the manifest file, the
package's temp directory and the effective wait, capturing either its
result or the partial result carried on its rejection. -/
def packageRetrieveResult (env : Env) (pkgName : String) (wait : Nat) (dir : Nat)
    (m : Manifest) : Option RetrievalResult × List Event :=
  if m.empty then
    (if env.obsoleteNames.length > 0 then some succeededEmptyResult else none, [])
  else
    (match env.gateway pkgName with
      | .ok r => some r
      | .err carried => carried,
     [Event.retrieve (m.file.getD "") dir wait])

/-- The body of the `try` block of the per-package step in `doPull` (with the
preceding `setActivePackage`): activate the package, acquire the temp
directory, build the manifest, obtain the retrieval result, and post-process
it. -/
def pullPackageBody (env : Env) (opts : PullOptions) (wait : Nat) (dir : Nat)
    (pkgName : String) (pkg : Pkg) :
    Except Thrown (Option PkgPullResult) × List Event :=
  let m := createPackageManifest env opts pkgName pkg
  let r := packageRetrieveResult env pkgName wait dir m.1
  let p := postRetrieve env opts r.1
  (p.1,
   [Event.setActivePackage pkgName, Event.createOutputDir dir]
     ++ m.2 ++ r.2 ++ p.2)

/-- One per-package step of `doPull` including its `finally`: whatever the
body's outcome, the scoped temp directory is cleaned up before the package's
outcome is finalized. -/
def pullPackage (env : Env) (opts : PullOptions) (wait : Nat) (dir : Nat)
    (pkgName : String) (pkg : Pkg) :
    Except Thrown (Option PkgPullResult) × List Event :=
  let b := pullPackageBody env opts wait dir pkgName pkg
  (b.1, b.2 ++ [Event.cleanupOutputDir dir])

/-- Embeds `BBPromise.mapSeries` over the packages: the steps run strictly in
sequence, and a rejected step rejects the whole series at once — later
packages are not processed. -/
def mapSeriesPull (env : Env) (opts : PullOptions) (wait : Nat) :
    List (Nat × String × Pkg) →
    Except Thrown (List (Option PkgPullResult)) × List Event
  | [] => (.ok [], [])
  | x :: rest =>
    let s := pullPackage env opts wait x.1 x.2.1 x.2.2
    match s.1 with
    | .error t => (.error t, s.2)
    | .ok v =>
      let m := mapSeriesPull env opts wait rest
      match m.1 with
      | .error t => (.error t, s.2 ++ m.2)
      | .ok vs => (.ok (v :: vs), s.2 ++ m.2)

/-- Embeds `MdapiPullApi._checkForConflicts`: with `forceoverwrite`, an empty
list is returned at once with no status I/O.  Otherwise the status query
runs; a query failure is mapped to a message (the `NonScratchOrgPull`
message for `INVALID_TYPE`, the original message otherwise) and — because
the source throws the value of the assignment expression
`SfdxError.wrap(err).message = errorMessage` — the thrown value is that
bare message string.  A nonempty conflict list throws an error named
`SourceConflict` carrying the conflicts as `sourceConflictElements`. -/
def checkForConflicts (env : Env) (options : PullOptions) :
    Except Thrown (List ConflictEntry) × List Event :=
  if options.forceoverwrite then (.ok [], [])
  else
    match env.status with
    | .error e =>
      let errorMessage :=
        if e.errorCode == some "INVALID_TYPE" then env.nonScratchOrgPullMsg
        else e.message
      (.error (.str errorMessage), [Event.statusQuery])
    | .ok conflicts =>
      if conflicts.length > 0 then
        (.error (.err "SourceConflict" "Conflicts found during sync down" (some conflicts)),
         [Event.statusQuery])
      else (.ok conflicts, [Event.statusQuery])

/-- The effective wait: the caller's wait when it is a number, else the
configured `defaultSrcWaitMinutes`. -/
def effWait (env : Env) (options : PullOptions) : Nat :=
  options.wait.getD env.defaultSrcWaitMinutes

/-- Embeds `MdapiPullApi.doPull`: resolve the wait, check conflicts (a throw
aborts everything), partition the revisions into packages, run the
per-package steps strictly in series, and only when the whole series
resolved re-query the authoritative revision state
(`setMaxRevisionCounterFromQuery`) before returning the collected results. -/
def doPull (env : Env) (options : PullOptions) :
    Except Thrown (List (Option PkgPullResult)) × List Event :=
  let wait := effWait env options
  let c := checkForConflicts env options
  match c.1 with
  | .error t => (.error t, c.2)
  | .ok _ =>
    let r := mapSeriesPull env options wait env.packages.enum
    match r.1 with
    | .error t => (.error t, c.2 ++ [Event.getRevisionsAsPackage] ++ r.2)
    | .ok rs =>
      (.ok rs,
       c.2 ++ [Event.getRevisionsAsPackage] ++ r.2 ++ [Event.setMaxRevisionFromQuery])

/-! Embedding of `src/lib/core/projectDir.ts`.  A directory path is
represented by its separator-split segments (an absolute path such as
`/home/user` is `["", "home", "user"]`), so that
`workingDir.substring(0, workingDir.lastIndexOf(path.sep))` is
`List.dropLast` and the guard `indexOflastSlash > 0` is
`hasDroppableParent` below. -/

/-- Outcome of `fs.statSync` on one candidate config-file path. -/
inductive StatOutcome where
  | ok
  | enoent
  | otherErr (code : String)
deriving DecidableEq, Repr

/-- The filesystem as seen by `projectDir.getPath`: the stat outcome for a
config file name inside a directory. -/
structure ProjectFs where
  stat : List String → String → StatOutcome

/-- An error thrown by `projectDir.getPath`. -/
structure PjError where
  name : String
  message : String
  oldAndBustedPath : Option (List String)
deriving DecidableEq, Repr

/-- The `InvalidProjectWorkspace` error built when the traversal exhausts the
path without finding the config file. -/
def invalidProjectWorkspaceError : PjError :=
  { name := "InvalidProjectWorkspace"
    message := "InvalidProjectWorkspace"
    oldAndBustedPath := none }

/-- Whether `workingDir.lastIndexOf(path.sep) > 0` holds for the path the
segment list denotes: at least three segments always have an inner
separator; exactly two segments do iff the first segment (everything before
the single separator) is nonempty. -/
def hasDroppableParent (wd : List String) : Bool :=
  decide (2 < wd.length) || (wd.length == 2 && wd.head? != some "")

/-- Embeds `traverseForFile` of `projectDir.ts`: stat the candidate; on
success the working directory is the found project directory; on `ENOENT`
walk one directory up, or throw `InvalidProjectWorkspace` at the top; on any
other stat error the catch block falls through and the traversal returns
silently with `foundProjectDir` still `null`. -/
def traverseForFile (fs : ProjectFs) (workingDir : List String) (file : String) :
    Except PjError (Option (List String)) :=
  match fs.stat workingDir file with
  | .ok => .ok (some workingDir)
  | .otherErr _ => .ok none
  | .enoent =>
    if h : hasDroppableParent workingDir then
      traverseForFile fs workingDir.dropLast file
    else
      .error invalidProjectWorkspaceError
termination_by workingDir.length
decreasing_by
  simp only [hasDroppableParent, Bool.or_eq_true, decide_eq_true_eq,
    Bool.and_eq_true, beq_iff_eq] at h
  rcases h with h | ⟨h, _⟩ <;> simp [List.length_dropLast] <;> omega

/-- Embeds `local.getPath` of `projectDir.ts`: traverse for the workspace
config file; when that traversal throws, try the old workspace file name —
if the second traversal returns normally the error is re-thrown with the
`OldSfdxWorkspaceJsonPresent` message and the path it found, and when it
throws too that is ignored and the original error is re-thrown. -/
def getPath (fs : ProjectFs) (cwd : List String) (cfgFile oldCfgFile : String) :
    Except PjError (Option (List String)) :=
  match traverseForFile fs cwd cfgFile with
  | .ok found => .ok found
  | .error e =>
    match traverseForFile fs cwd oldCfgFile with
    | .ok found2 =>
      .error { e with message := "OldSfdxWorkspaceJsonPresent", oldAndBustedPath := found2 }
    | .error _ => .error e

/-! Concrete fixtures used by counterexamples and witnesses. -/

/-- A baseline environment: no packages, no obsolete names, clean status. -/
def baseEnv : Env :=
  { defaultSrcWaitMinutes := 33
    sep := '/'
    status := .ok []
    packages := []
    obsoleteNames := []
    manifestFileFor := fun n => "manifest-" ++ n
    gateway := fun _ => .err none
    retrieveFailureMsg := fun _ => "retrieve failed"
    nonScratchOrgPullMsg := "NonScratchOrgPull"
    updateSourceErr := none }

/-- Baseline pull options: explicit wait, no force-overwrite, no overrides. -/
def baseOpts : PullOptions :=
  { wait := some 5
    forceoverwrite := false
    packageXml := none
    debug := false
    unsupportedMimeTypes := []
    manifest := none }

/-- Baseline options with `forceoverwrite` set. -/
def forceOpts : PullOptions := { baseOpts with forceoverwrite := true }

/-- Two file properties retrieved for the succeeding package. -/
def fpAlpha : FileProperty :=
  { type := "ApexClass", fullName := "Alpha", fileName := "classes/Alpha.cls" }

/-- Second file property of the succeeding package. -/
def fpBeta : FileProperty :=
  { type := "ApexClass", fullName := "Beta", fileName := "classes/Beta.cls" }

/-- A fully succeeded retrieval result with two files. -/
def resultTwoFiles : RetrievalResult :=
  { success := true
    status := "Succeeded"
    messages := none
    fileProperties := some [fpAlpha, fpBeta] }

/-- The partial-failure result carried on a timed-out gateway rejection. -/
def failedTimeout : RetrievalResult :=
  { success := false
    status := "InProgress"
    messages := none
    fileProperties := none }

/-- Environment for the multi-package scenario: package A succeeds with two
files, package B's gateway rejects carrying a failed result, package C would
succeed but comes after B. -/
def envMulti : Env :=
  { baseEnv with
    packages := [("A", { isEmpty := false }), ("B", { isEmpty := false }),
      ("C", { isEmpty := false })]
    gateway := fun n =>
      if n == "B" then .err (some failedTimeout) else .ok resultTwoFiles }

/-- One conflict entry for the conflict-abort scenario. -/
def conflictFoo : ConflictEntry := { fullName := "Foo", type := "ApexClass" }

/-- Environment whose status query reports one conflict. -/
def envConflict : Env := { baseEnv with status := .ok [conflictFoo] }

/-- A result whose `messages` field is present but empty. -/
def resultEmptyMsgs : RetrievalResult :=
  { success := true
    status := "Succeeded"
    messages := some []
    fileProperties := some [] }

/-- One obsolete name for the deletion scenarios. -/
def obsGone : ObsoleteName := { fullName := "Gone", type := "ApexClass" }

/-- Environment with a single empty package and one obsolete name. -/
def envObsolete : Env :=
  { baseEnv with
    packages := [("A", { isEmpty := true })]
    obsoleteNames := [obsGone] }

/-- The status error surfaced against an environment without tracking. -/
def statusErrInvalidType : StatusErr :=
  { errorCode := some "INVALID_TYPE", message := "sobject type not supported" }

/-- Environment whose status query itself rejects with `INVALID_TYPE`. -/
def envInvalidType : Env := { baseEnv with status := .error statusErrInvalidType }

/-- The bundle definition file of the composite-attribution scenario. -/
def cmpFp : FileProperty :=
  { type := "AuraDefinitionBundle", fullName := "root", fileName := "aura/root/root.cmp" }

/-- A sibling controller file of the bundle. -/
def jsFp : FileProperty :=
  { type := "AuraDefinitionBundle", fullName := "root", fileName := "aura/root/root.js" }

/-- A sibling style file of the bundle. -/
def cssFp : FileProperty :=
  { type := "AuraDefinitionBundle", fullName := "root", fileName := "aura/root/root.css" }

/-- A succeeded result containing one full bundle. -/
def bundleResult : RetrievalResult :=
  { success := true
    status := "Succeeded"
    messages := none
    fileProperties := some [cmpFp, jsFp, cssFp] }

/-- A filesystem on which every stat fails with a permission error. -/
def fsDenied : ProjectFs := { stat := fun _ _ => .otherErr "EACCES" }

/-- Discriminator for the commit event recorded by `_syncDownSource`. -/
def isUpdateSourceCall : Event → Bool
  | .updateSourceCall _ _ _ _ => true
  | _ => false

/-! Shared helper lemmas. -/

/-- A list ending in a singleton has that element as its last. -/
theorem getLast?_append_singleton {α : Type} (l : List α) (a : α) :
    (l ++ [a]).getLast? = some a :=
  List.getLast?_concat l

/-- File-property processing events are never the commit event. -/
theorem filter_update_of_proc (l : List FileProperty) (bp : List FileProperty) :
    (l.map (fun fp => Event.processFileProp fp bp)).filter isUpdateSourceCall = [] := by
  induction l with
  | nil => rfl
  | cons a t ih => simp [isUpdateSourceCall, ih]

/-- Obsolete-handling events are never the commit event. -/
theorem filter_update_of_obs (l : List ObsoleteName) :
    (l.map (fun o => Event.handleObsolete o.fullName o.type)).filter isUpdateSourceCall = [] := by
  induction l with
  | nil => rfl
  | cons a t ih => simp [isUpdateSourceCall, ih]

/-- When a predicate has at most one satisfier in a list, `find?` returns the
satisfier wherever it sits. -/
theorem find?_eq_some_of_unique {α : Type} {l : List α} {q : α → Bool} {a : α}
    (ha : a ∈ l) (hqa : q a = true)
    (h : ∀ x ∈ l, ∀ y ∈ l, q x = true → q y = true → x = y) :
    l.find? q = some a := by
  induction l with
  | nil => cases ha
  | cons x xs ih =>
    cases hx : q x with
    | true =>
      have hxa : x = a := h x (List.mem_cons_self x xs) a ha hx hqa
      rw [List.find?_cons_of_pos xs hx, hxa]
    | false =>
      have hne : a ≠ x := fun he => by rw [he, hx] at hqa; cases hqa
      have ha' : a ∈ xs := by
        rcases List.mem_cons.mp ha with h1 | h1
        · exact absurd h1 hne
        · exact h1
      rw [List.find?_cons_of_neg xs (by simp [hx])]
      exact ih ha'
        (fun x1 h1 y1 h2 => h x1 (List.mem_cons_of_mem _ h1) y1 (List.mem_cons_of_mem _ h2))

/-- When a predicate has at most one satisfier, reversing the list does not
change what `find?` returns. -/
theorem find?_reverse_of_unique {α : Type} (l : List α) (q : α → Bool)
    (h : ∀ x ∈ l, ∀ y ∈ l, q x = true → q y = true → x = y) :
    l.reverse.find? q = l.find? q := by
  by_cases hex : ∃ a ∈ l, q a = true
  · obtain ⟨a, ha, hqa⟩ := hex
    have h' : ∀ x ∈ l.reverse, ∀ y ∈ l.reverse, q x = true → q y = true → x = y :=
      fun x h1 y h2 => h x (List.mem_reverse.mp h1) y (List.mem_reverse.mp h2)
    rw [find?_eq_some_of_unique ha hqa h,
      find?_eq_some_of_unique (List.mem_reverse.mpr ha) hqa h']
  · rw [List.find?_eq_none.mpr, List.find?_eq_none.mpr]
    · intro x hx hqx
      exact hex ⟨x, hx, by simpa using hqx⟩
    · intro x hx hqx
      exact hex ⟨x, List.mem_reverse.mp hx, by simpa using hqx⟩

/-! Theorems for the claims. -/

/-- C2: with `forceOverwrite` the conflict check returns an empty list at
once with no status I/O; otherwise a nonempty conflict list makes the pull
throw an error named `SourceConflict` carrying the full conflict list as
`sourceConflictElements`, with only the status query performed — no package
partitioning, manifest build or retrieval call. -/
theorem c2_conflict_abort :
    (∀ (env : Env) (opts : PullOptions), opts.forceoverwrite = true →
      checkForConflicts env opts = (.ok [], []))
    ∧ (∀ (env : Env) (opts : PullOptions) (cs : List ConflictEntry),
      opts.forceoverwrite = false → env.status = .ok cs → cs ≠ [] →
      doPull env opts =
        (.error (.err "SourceConflict" "Conflicts found during sync down" (some cs)),
         [Event.statusQuery])) := by
  constructor
  · intro env opts h
    simp [checkForConflicts, h]
  · intro env opts cs h1 h2 h3
    have hlen : 0 < cs.length := List.length_pos.mpr h3
    simp [doPull, checkForConflicts, h1, h2, hlen]

/-- Witness for C2 at a concrete environment with one conflict. -/
theorem c2_conflict_abort_witness :
    checkForConflicts envConflict forceOpts = (.ok [], [])
    ∧ doPull envConflict baseOpts =
      (.error (.err "SourceConflict" "Conflicts found during sync down" (some [conflictFoo])),
       [Event.statusQuery]) :=
  ⟨c2_conflict_abort.1 envConflict forceOpts rfl,
   c2_conflict_abort.2 envConflict baseOpts [conflictFoo] rfl rfl (by decide)⟩

/-- C4 counterexample: with an empty manifest and no obsolete names the code
does NOT synthesize a trivial succeeded-empty result — the `result` variable
is left undefined (nil), so the per-package outcome is `undefined`, not a
succeeded-empty result. -/
theorem c4_counterexample :
    baseEnv.obsoleteNames = []
    ∧ (packageRetrieveResult baseEnv "A" 5 0 { empty := true, file := none }).1 = none
    ∧ (packageRetrieveResult baseEnv "A" 5 0 { empty := true, file := none }).1 ≠
        some succeededEmptyResult
    ∧ (pullPackage baseEnv baseOpts 5 0 "A" { isEmpty := true }).1 = .ok none := by
  decide

/-- C4 (amended): for an empty manifest the gateway is always skipped, but
the trivial succeeded-empty result is synthesized only when obsolete names
exist; with no obsolete names the result is left nil.  Only for a non-empty
manifest is the gateway called with the manifest file, the target directory
and the caller-or-default wait, capturing its result or the partial result
carried on its rejection. -/
theorem c4_empty_manifest_amended :
    (∀ (env : Env) (pkgName : String) (wait dir : Nat) (m : Manifest),
      m.empty = true → env.obsoleteNames = [] →
      packageRetrieveResult env pkgName wait dir m = (none, []))
    ∧ (∀ (env : Env) (pkgName : String) (wait dir : Nat) (m : Manifest),
      m.empty = true → env.obsoleteNames ≠ [] →
      packageRetrieveResult env pkgName wait dir m = (some succeededEmptyResult, []))
    ∧ (∀ (env : Env) (pkgName : String) (wait dir : Nat) (m : Manifest),
      m.empty = false →
      packageRetrieveResult env pkgName wait dir m =
        ((match env.gateway pkgName with
          | .ok r => some r
          | .err carried => carried),
         [Event.retrieve (m.file.getD "") dir wait])) := by
  refine ⟨?_, ?_, ?_⟩
  · intro env pkgName wait dir m h1 h2
    simp [packageRetrieveResult, h1, h2]
  · intro env pkgName wait dir m h1 h2
    have hlen : 0 < env.obsoleteNames.length := List.length_pos.mpr h2
    simp [packageRetrieveResult, h1, hlen]
  · intro env pkgName wait dir m h1
    simp [packageRetrieveResult, h1]

/-- Witness for the amended C4 on all three legs. -/
theorem c4_empty_manifest_amended_witness :
    packageRetrieveResult baseEnv "A" 5 0 { empty := true, file := none } = (none, [])
    ∧ packageRetrieveResult envObsolete "A" 5 0 { empty := true, file := none } =
        (some succeededEmptyResult, [])
    ∧ packageRetrieveResult baseEnv "B" 7 1 { empty := false, file := some "pkg.xml" } =
        ((match baseEnv.gateway "B" with
          | .ok r => some r
          | .err carried => carried),
         [Event.retrieve "pkg.xml" 1 7]) :=
  ⟨c4_empty_manifest_amended.1 baseEnv "A" 5 0 _ rfl rfl,
   c4_empty_manifest_amended.2.1 envObsolete "A" 5 0 _ rfl (by decide),
   c4_empty_manifest_amended.2.2 baseEnv "B" 7 1 _ rfl⟩

/-- C6 counterexample: when the status query rejects with `INVALID_TYPE`,
the pull throws a bare string (the value of the assignment expression in the
catch handler), which carries no error name at all — in particular it is not
an error named `UnsupportedEnvironment`. -/
theorem c6_counterexample :
    doPull envInvalidType baseOpts = (.error (.str "NonScratchOrgPull"), [Event.statusQuery])
    ∧ Thrown.thrownName (.str "NonScratchOrgPull") = none
    ∧ Thrown.thrownName (.str "NonScratchOrgPull") ≠ some "UnsupportedEnvironment" := by
  refine ⟨?_, rfl, by decide⟩
  decide

/-- C6 (amended): when the status query fails with an `INVALID_TYPE` error
code the pull surfaces a distinct failure — the `NonScratchOrgPull` message
— but, because the catch handler throws the value of an assignment
expression, the thrown value is the bare message string, which carries no
error name; no error named `UnsupportedEnvironment` is produced. -/
theorem c6_invalid_type_amended (env : Env) (opts : PullOptions) (e : StatusErr)
    (hf : opts.forceoverwrite = false) (hs : env.status = .error e)
    (hc : e.errorCode = some "INVALID_TYPE") :
    doPull env opts = (.error (.str env.nonScratchOrgPullMsg), [Event.statusQuery])
    ∧ Thrown.thrownName (.str env.nonScratchOrgPullMsg) = none := by
  refine ⟨?_, rfl⟩
  simp [doPull, checkForConflicts, hf, hs, hc]

/-- Witness for the amended C6 at the concrete `INVALID_TYPE` environment. -/
theorem c6_invalid_type_amended_witness :
    doPull envInvalidType baseOpts =
      (.error (.str envInvalidType.nonScratchOrgPullMsg), [Event.statusQuery])
    ∧ Thrown.thrownName (.str envInvalidType.nonScratchOrgPullMsg) = none :=
  c6_invalid_type_amended envInvalidType baseOpts statusErrInvalidType rfl rfl rfl

/-- C7: every apply commits the aggregate through `updateSource` with the
check-for-duplicates argument `false` — so duplicate detection does not run
— while the caller's unsupported-mime-type and force-overwrite flags are
passed through unchanged. -/
theorem c7_update_source_flags (env : Env) (opts : PullOptions) (r : RetrievalResult) :
    (syncDownSource env opts r).2.filter isUpdateSourceCall =
      [Event.updateSourceCall opts.manifest false opts.unsupportedMimeTypes opts.forceoverwrite]
    ∧ commitRunsDuplicateCheck false = false := by
  refine ⟨?_, rfl⟩
  show (syncDownTrace env opts r).filter isUpdateSourceCall = _
  simp [syncDownTrace, List.filter_append, filter_update_of_proc, filter_update_of_obs,
    isUpdateSourceCall]
  intro a x hx htype hEq
  subst hEq
  rfl

/-- C10: when a stat during the project-directory traversal fails with an
error whose code is not `ENOENT`, the traversal stops silently with no
project directory found, and `getPath` then returns null rather than a found
directory or an `InvalidProjectWorkspace` error. -/
theorem c10_silent_stop :
    (∀ (fs : ProjectFs) (wd : List String) (file code : String),
      fs.stat wd file = .otherErr code → traverseForFile fs wd file = .ok none)
    ∧ (∀ (fs : ProjectFs) (cwd : List String) (cfgFile oldCfgFile : String),
      traverseForFile fs cwd cfgFile = .ok none →
      getPath fs cwd cfgFile oldCfgFile = .ok none) := by
  constructor
  · intro fs wd file code h
    unfold traverseForFile
    rw [h]
  · intro fs cwd cfgFile oldCfgFile h
    unfold getPath
    rw [h]

/-- Witness for C10: on a filesystem denying every stat with `EACCES`,
`getPath` returns null without throwing. -/
theorem c10_silent_stop_witness :
    getPath fsDenied ["", "home", "user"] "sfdx-project.json" "sfdx-workspace.json" =
      .ok none :=
  c10_silent_stop.2 fsDenied ["", "home", "user"] "sfdx-project.json" "sfdx-workspace.json"
    (c10_silent_stop.1 fsDenied ["", "home", "user"] "sfdx-project.json" "EACCES" rfl)

/-- The apply's trace never cleans up the temp directory. -/
theorem cleanup_not_in_syncDownTrace (env : Env) (opts : PullOptions)
    (r : RetrievalResult) (d : Nat) :
    Event.cleanupOutputDir d ∉ syncDownTrace env opts r := by
  simp [syncDownTrace]

/-- The post-retrieve step's trace never cleans up the temp directory. -/
theorem cleanup_not_in_postRetrieve (env : Env) (opts : PullOptions)
    (result : Option RetrievalResult) (d : Nat) :
    Event.cleanupOutputDir d ∉ (postRetrieve env opts result).2 := by
  cases result with
  | none => simp [postRetrieve]
  | some r =>
    by_cases h : didRetrieveSucceed (some r) = true
    · cases hs : (syncDownSource env opts r).1 with
      | error t => simp [postRetrieve, h, hs, cleanup_not_in_syncDownTrace]
      | ok agg => simp [postRetrieve, h, hs, cleanup_not_in_syncDownTrace]
    · simp [postRetrieve, h]

/-- The manifest-build step's trace never cleans up the temp directory. -/
theorem cleanup_not_in_createManifest (env : Env) (opts : PullOptions)
    (pkgName : String) (pkg : Pkg) (d : Nat) :
    Event.cleanupOutputDir d ∉ (createPackageManifest env opts pkgName pkg).2 := by
  unfold createPackageManifest
  split
  · simp
  · split <;> simp

/-- The retrieve step's trace never cleans up the temp directory. -/
theorem cleanup_not_in_packageRetrieveResult (env : Env) (pkgName : String)
    (wait dir : Nat) (m : Manifest) (d : Nat) :
    Event.cleanupOutputDir d ∉ (packageRetrieveResult env pkgName wait dir m).2 := by
  unfold packageRetrieveResult
  split <;> simp

/-- The whole body of the per-package try block never cleans up the temp
directory; only the finally does. -/
theorem cleanup_not_in_pullPackageBody (env : Env) (opts : PullOptions)
    (wait dir : Nat) (pkgName : String) (pkg : Pkg) (d : Nat) :
    Event.cleanupOutputDir d ∉ (pullPackageBody env opts wait dir pkgName pkg).2 := by
  have h1 := cleanup_not_in_createManifest env opts pkgName pkg d
  have h2 := cleanup_not_in_packageRetrieveResult env pkgName wait dir
    (createPackageManifest env opts pkgName pkg).1 d
  have h3 := cleanup_not_in_postRetrieve env opts
    (packageRetrieveResult env pkgName wait dir (createPackageManifest env opts pkgName pkg).1).1 d
  simp [pullPackageBody, h1, h2, h3]

/-- C9: on every exit path of the per-package step (successful apply,
gateway/retrieve failure, apply failure) the scoped temp directory is
cleaned up exactly once, and the cleanup is the last thing that happens
before the package's outcome is finalized. -/
theorem c9_cleanup_exactly_once (env : Env) (opts : PullOptions) (wait dir : Nat)
    (pkgName : String) (pkg : Pkg) :
    (pullPackage env opts wait dir pkgName pkg).2.count (Event.cleanupOutputDir dir) = 1
    ∧ (pullPackage env opts wait dir pkgName pkg).2.getLast? =
        some (Event.cleanupOutputDir dir) := by
  constructor
  · show ((pullPackageBody env opts wait dir pkgName pkg).2
        ++ [Event.cleanupOutputDir dir]).count (Event.cleanupOutputDir dir) = 1
    rw [List.count_append,
      List.count_eq_zero.mpr (cleanup_not_in_pullPackageBody env opts wait dir pkgName pkg dir)]
    simp
  · exact getLast?_append_singleton _ _

/-- C5: an empty package with at least one obsolete name synthesizes the
succeeded result with empty `fileProperties`, makes no gateway call, and the
apply still removes the local element of every obsolete name, accumulating
the deletions into the aggregate returned as the package's inbound files. -/
theorem c5_obsolete_only_package (env : Env) (opts : PullOptions) (wait dir : Nat)
    (pkgName : String) (hobs : env.obsoleteNames ≠ []) (hok : env.updateSourceErr = none) :
    (packageRetrieveResult env pkgName wait dir { empty := true, file := none }).1 =
        some succeededEmptyResult
    ∧ (pullPackage env opts wait dir pkgName { isEmpty := true }).1 =
        .ok (some { inboundFiles := env.obsoleteNames.map handleObsoleteSource })
    ∧ (∀ f d w, Event.retrieve f d w ∉
        (pullPackage env opts wait dir pkgName { isEmpty := true }).2)
    ∧ (∀ o ∈ env.obsoleteNames,
        Event.handleObsolete o.fullName o.type ∈
            (pullPackage env opts wait dir pkgName { isEmpty := true }).2
          ∧ handleObsoleteSource o ∈
              pulledAggregate env.sep env.obsoleteNames succeededEmptyResult) := by
  have hlen : 0 < env.obsoleteNames.length := List.length_pos.mpr hobs
  refine ⟨?_, ?_, ?_, ?_⟩
  · simp [packageRetrieveResult, hlen]
  · simp [pullPackage, pullPackageBody, createPackageManifest, packageRetrieveResult, hlen,
      postRetrieve, didRetrieveSucceed, succeededEmptyResult, syncDownSource, hok,
      processResults, pulledAggregate]
  · intro f d w
    simp [pullPackage, pullPackageBody, createPackageManifest, packageRetrieveResult, hlen,
      postRetrieve, didRetrieveSucceed, succeededEmptyResult, syncDownSource, hok,
      processResults, syncDownTrace]
  · intro o ho
    constructor
    · simp [pullPackage, pullPackageBody, createPackageManifest, packageRetrieveResult, hlen,
        postRetrieve, didRetrieveSucceed, succeededEmptyResult, syncDownSource, hok,
        processResults, syncDownTrace]
      exact ⟨o, ho, rfl, rfl⟩
    · simp [pulledAggregate, succeededEmptyResult]
      exact ⟨o, ho, rfl⟩

/-- Witness for C5 at the concrete single-obsolete environment. -/
theorem c5_obsolete_only_package_witness :
    envObsolete.obsoleteNames ≠ []
    ∧ (pullPackage envObsolete baseOpts 5 0 "A" { isEmpty := true }).1 =
        .ok (some { inboundFiles := envObsolete.obsoleteNames.map handleObsoleteSource }) :=
  ⟨by decide,
   (c5_obsolete_only_package envObsolete baseOpts 5 0 "A" (by decide) rfl).2.1⟩

/-- C3 counterexample: a result whose `messages` field is present but empty
satisfies the claim's success predicate yet the code treats it as failed and
throws `RetrieveFailed`; and a nil result falsifies the claim's negation leg
because nothing is thrown — `undefined` is returned. -/
theorem c3_counterexample :
    didRetrieveSucceedClaim (some resultEmptyMsgs) = true
    ∧ didRetrieveSucceed (some resultEmptyMsgs) = false
    ∧ processResults baseEnv (some resultEmptyMsgs) [] =
        .error (.err "RetrieveFailed" "retrieve failed" none)
    ∧ didRetrieveSucceedClaim none = false
    ∧ processResults baseEnv none [] = .ok none := by
  decide

/-- C3 (amended): the code treats a result as succeeded iff it is non-nil,
its success flag is true, its status is `"Succeeded"`, its `messages` field
is absent (nil — a present-but-empty list already counts as failure) and its
`fileProperties` field is a list; under the predicate the apply runs and
`{inboundFiles}` is returned; for a non-nil result failing the predicate a
`RetrieveFailed` error is thrown; a nil result returns `undefined` with no
error. -/
theorem c3_success_predicate_amended :
    (∀ r : RetrievalResult,
      didRetrieveSucceed (some r) =
        (r.success && r.status == "Succeeded" && r.messages.isNone && r.fileProperties.isSome))
    ∧ (∀ (env : Env) (opts : PullOptions) (r : RetrievalResult),
      didRetrieveSucceed (some r) = true → env.updateSourceErr = none →
      postRetrieve env opts (some r) =
        (.ok (some { inboundFiles := pulledAggregate env.sep env.obsoleteNames r }),
         syncDownTrace env opts r))
    ∧ (∀ (env : Env) (opts : PullOptions) (r : RetrievalResult),
      didRetrieveSucceed (some r) = false →
      postRetrieve env opts (some r) =
        (.error (.err "RetrieveFailed" (env.retrieveFailureMsg r) none), []))
    ∧ (∀ (env : Env) (opts : PullOptions), postRetrieve env opts none = (.ok none, [])) := by
  refine ⟨fun r => rfl, ?_, ?_, fun env opts => rfl⟩
  · intro env opts r h1 h2
    simp [postRetrieve, h1, syncDownSource, h2, processResults]
  · intro env opts r h
    simp [postRetrieve, h, processResults]

/-- Witness for the amended C3 on the success and failure legs. -/
theorem c3_success_predicate_amended_witness :
    postRetrieve baseEnv baseOpts (some succeededEmptyResult) =
      (.ok (some { inboundFiles :=
          pulledAggregate baseEnv.sep baseEnv.obsoleteNames succeededEmptyResult }),
       syncDownTrace baseEnv baseOpts succeededEmptyResult)
    ∧ postRetrieve baseEnv baseOpts (some failedTimeout) =
      (.error (.err "RetrieveFailed" (baseEnv.retrieveFailureMsg failedTimeout) none), []) :=
  ⟨c3_success_predicate_amended.2.1 baseEnv baseOpts succeededEmptyResult (by decide) rfl,
   c3_success_predicate_amended.2.2.1 baseEnv baseOpts failedTimeout (by decide)⟩

/-- C1 counterexample: with packages A (succeeds), B (gateway rejects
carrying a failed result) and C (would succeed), `mapSeries` rejects at B:
the whole pull rejects with `RetrieveFailed`, package C is never activated,
and the checkpoint re-query never runs — so a failure in one package does
prevent the remaining packages from being processed and the overall result
does not report the succeeded package's inbound files. -/
theorem c1_counterexample :
    (doPull envMulti baseOpts).1 = .error (.err "RetrieveFailed" "retrieve failed" none)
    ∧ Event.setActivePackage "A" ∈ (doPull envMulti baseOpts).2
    ∧ Event.setActivePackage "C" ∉ (doPull envMulti baseOpts).2
    ∧ Event.setMaxRevisionFromQuery ∉ (doPull envMulti baseOpts).2 := by
  decide

/-- C1 (amended): only after the per-package steps have run for all packages
without rejection does the orchestrator re-query the authoritative revision
state (the trace then ends with the checkpoint re-query) and return the
collected per-package results; a package whose step rejects (e.g. with
`RetrieveFailed`) rejects the whole series at that point — the remaining
packages are not processed and the checkpoint is not rebuilt — while the
changes already applied by earlier succeeded packages remain durable. -/
theorem c1_checkpoint_amended :
    (∀ (env : Env) (opts : PullOptions),
      exceptOk (checkForConflicts env opts).1 = true →
      exceptOk (mapSeriesPull env opts (effWait env opts) env.packages.enum).1 = true →
      (doPull env opts).1 = (mapSeriesPull env opts (effWait env opts) env.packages.enum).1
        ∧ (doPull env opts).2.getLast? = some Event.setMaxRevisionFromQuery)
    ∧ (∀ (env : Env) (opts : PullOptions) (wait : Nat) (x : Nat × String × Pkg)
        (rest : List (Nat × String × Pkg)) (t : Thrown),
      (pullPackage env opts wait x.1 x.2.1 x.2.2).1 = .error t →
      mapSeriesPull env opts wait (x :: rest) =
        (.error t, (pullPackage env opts wait x.1 x.2.1 x.2.2).2)) := by
  constructor
  · intro env opts h1 h2
    cases hc : (checkForConflicts env opts).1 with
    | error t => rw [hc] at h1; cases h1
    | ok cs =>
      cases hr : (mapSeriesPull env opts (effWait env opts) env.packages.enum).1 with
      | error t => rw [hr] at h2; cases h2
      | ok rs =>
        constructor
        · simp [doPull, hc, hr]
        · show (doPull env opts).2.getLast? = _
          have : (doPull env opts).2 =
              ((checkForConflicts env opts).2 ++ [Event.getRevisionsAsPackage]
                ++ (mapSeriesPull env opts (effWait env opts) env.packages.enum).2)
                ++ [Event.setMaxRevisionFromQuery] := by
            simp [doPull, hc, hr]
          rw [this, getLast?_append_singleton]
  · intro env opts wait x rest t h
    simp [mapSeriesPull, h]

/-- Witness for the amended C1: the all-success leg on the empty-package
environment, and the short-circuit leg at a rejecting package followed by
another package. -/
theorem c1_checkpoint_amended_witness :
    ((doPull baseEnv forceOpts).1 =
        (mapSeriesPull baseEnv forceOpts (effWait baseEnv forceOpts) baseEnv.packages.enum).1
      ∧ (doPull baseEnv forceOpts).2.getLast? = some Event.setMaxRevisionFromQuery)
    ∧ mapSeriesPull envMulti baseOpts 5
        ((1, "B", { isEmpty := false }) :: [(2, "C", { isEmpty := false })]) =
      (.error (.err "RetrieveFailed" "retrieve failed" none),
       (pullPackage envMulti baseOpts 5 1 "B" { isEmpty := false }).2) :=
  ⟨c1_checkpoint_amended.1 baseEnv forceOpts (by decide) (by decide),
   c1_checkpoint_amended.2 envMulti baseOpts 5 (1, "B", { isEmpty := false })
     [(2, "C", { isEmpty := false })] (.err "RetrieveFailed" "retrieve failed" none)
     (by decide)⟩

/-- C8: the sub-component-to-definition mapping handed to every per-file
processing call is the one computed once over the entire `fileProperties`
list before per-file processing begins; provided each bundle has one
definition property in the batch, the owning definition looked up for any
file is unchanged when the siblings' order is reversed, and every sibling
whose bundle matches a definition file is attributed to that definition's
element. -/
theorem c8_bundle_attribution (env : Env) (opts : PullOptions) (r : RetrievalResult)
    (hu : ((getDefinitionProperties (r.fileProperties.getD [])).map (bundleKey env.sep)).Nodup) :
    (∀ fp bp, Event.processFileProp fp bp ∈ (syncDownSource env opts r).2 →
      bp = getDefinitionProperties (r.fileProperties.getD []))
    ∧ (∀ fp : FileProperty,
      findOwningDefinition env.sep
          (getDefinitionProperties ((r.fileProperties.getD []).reverse)) fp
        = findOwningDefinition env.sep
          (getDefinitionProperties (r.fileProperties.getD [])) fp)
    ∧ (∀ fp d : FileProperty, d ∈ getDefinitionProperties (r.fileProperties.getD []) →
      bundleKey env.sep d = bundleKey env.sep fp →
      (processMdapiFileProperty env.sep
          (getDefinitionProperties (r.fileProperties.getD [])) fp).owner = d.fullName) := by
  have hinj := List.inj_on_of_nodup_map hu
  refine ⟨?_, ?_, ?_⟩
  · intro fp bp h
    have h' : Event.processFileProp fp bp ∈ syncDownTrace env opts r := h
    simp [syncDownTrace, List.mem_append, List.mem_map] at h'
    obtain ⟨a, ha, h1, h2⟩ := h'
    exact h2.symm
  · intro fp
    have hrev : getDefinitionProperties ((r.fileProperties.getD []).reverse)
        = (getDefinitionProperties (r.fileProperties.getD [])).reverse := by
      simp [getDefinitionProperties]
    rw [hrev]
    unfold findOwningDefinition
    apply find?_reverse_of_unique
    intro x hx y hy hqx hqy
    have kx : bundleKey env.sep x = bundleKey env.sep fp := by simpa using hqx
    have ky : bundleKey env.sep y = bundleKey env.sep fp := by simpa using hqy
    exact hinj hx hy (kx.trans ky.symm)
  · intro fp d hd hk
    have hfind : (getDefinitionProperties (r.fileProperties.getD [])).find?
        (fun e => bundleKey env.sep e == bundleKey env.sep fp) = some d := by
      apply find?_eq_some_of_unique hd (by simp [hk])
      intro x hx y hy hqx hqy
      have kx : bundleKey env.sep x = bundleKey env.sep fp := by simpa using hqx
      have ky : bundleKey env.sep y = bundleKey env.sep fp := by simpa using hqy
      exact hinj hx hy (kx.trans ky.symm)
    simp [processMdapiFileProperty, findOwningDefinition, hfind]

/-- Witness for C8 on the scenario bundle `[root.cmp, root.js, root.css]`:
the sibling lookup is invariant under reversal and both siblings are
attributed to the definition file's element. -/
theorem c8_bundle_attribution_witness :
    findOwningDefinition baseEnv.sep
        (getDefinitionProperties ((bundleResult.fileProperties.getD []).reverse)) jsFp
      = findOwningDefinition baseEnv.sep
        (getDefinitionProperties (bundleResult.fileProperties.getD [])) jsFp
    ∧ (processMdapiFileProperty baseEnv.sep
        (getDefinitionProperties (bundleResult.fileProperties.getD [])) jsFp).owner = cmpFp.fullName
    ∧ (processMdapiFileProperty baseEnv.sep
        (getDefinitionProperties (bundleResult.fileProperties.getD [])) cssFp).owner = cmpFp.fullName :=
  ⟨(c8_bundle_attribution baseEnv baseOpts bundleResult (by decide)).2.1 jsFp,
   (c8_bundle_attribution baseEnv baseOpts bundleResult (by decide)).2.2 jsFp cmpFp
     (by decide) (by decide),
   (c8_bundle_attribution baseEnv baseOpts bundleResult (by decide)).2.2 cssFp cmpFp
     (by decide) (by decide)⟩

end Alm
